import Mathlib

/-!
Verification of the RustProof weakest-precondition generator
(src/src/weakest_precondition/mod.rs) against its specification.

The generator walks a MIR control-flow graph backwards from `Return`
terminators, folding each block's statements in reverse order into an
accumulated predicate (an `Expression` tree).  Rust panics
(`unimplemented!`, `unreachable!`, `rp_error!`, `unwrap` on `None`,
out-of-bounds indexing) are modelled as `Except.error` outcomes, and the
unbounded recursion of `gen` is modelled with a fuel parameter: a result
of `none` means the fuel ran out, i.e. the recursion did not bottom out
within the given depth.
-/

set_option maxHeartbeats 1000000

namespace RustProof

/-- Fatal outcomes: each constructor models one way the Rust source
panics instead of returning a value. -/
inductive Err where
  | unimpl
  | unreach
  | rpError (msg : String)
  | unwrapNone
  | indexOutOfRange
deriving DecidableEq

/-- Semantic types of the expression language (spec section 3 / 4.5). -/
inductive Types where
  | Bool | I8 | I16 | I32 | I64 | U8 | U16 | U32 | U64
deriving DecidableEq

/-- A resolved variable: substitution key name plus semantic type. -/
structure VariableMappingData where
  name : String
  var_type : Types
deriving DecidableEq

/-- Unary operators of the expression language. -/
inductive UnaryOperator where
  | Not | BitwiseNot | Negation
deriving DecidableEq

/-- Binary operators of the expression language. -/
inductive BinaryOperator where
  | And | Implication
  | Addition | Subtraction | Multiplication | Division | Modulo
  | BitwiseOr | BitwiseAnd | BitwiseXor | BitwiseLeftShift | BitwiseRightShift
  | LessThan | LessThanOrEqual | GreaterThan | GreaterThanOrEqual
  | Equal | NotEqual
deriving DecidableEq

/-- The immutable expression tree (spec section 3). -/
inductive Expression where
  | BooleanLiteral (b : Bool)
  | SignedBitVector (size : Nat) (value : Int)
  | UnsignedBitVector (size : Nat) (value : Nat)
  | VariableMapping (v : VariableMappingData)
  | UnaryExpression (op : UnaryOperator) (e : Expression)
  | BinaryExpression (op : BinaryOperator) (left right : Expression)
deriving DecidableEq

/-- Declared types as the front end hands them over: a scalar type's
rendered name, or a tuple of element types (from a checked operation). -/
inductive Ty where
  | named (s : String)
  | tuple (elems : List Ty)

/-- Models rustc's rendering of a declared type to text.  A tuple type
renders to text that is never a recognized scalar type name, which is
all the generator ever relies on. -/
def tyToString : Ty → String
  | .named s => s
  | .tuple _ => "tuple"

/-- Integer constants of the supported widths (rustc ConstInt). -/
inductive ConstInt where
  | I8 (i : Int) | I16 (i : Int) | I32 (i : Int) | I64 (i : Int)
  | U8 (u : Nat) | U16 (u : Nat) | U32 (u : Nat) | U64 (u : Nat)
  | OtherInt
deriving DecidableEq

/-- Constant values (rustc ConstVal). -/
inductive ConstVal where
  | Bool (b : Bool)
  | Integral (ci : ConstInt)
  | OtherVal
deriving DecidableEq

/-- Literals attached to constants (rustc Literal).  An `item` carries
the debug-formatted path text of the referenced item, which is what the
Call handler inspects. -/
inductive Literal where
  | value (v : ConstVal)
  | item (path : String)
  | promoted
deriving DecidableEq

/-- A constant operand: its literal and its declared type. -/
structure ConstantData where
  literal : Literal
  ty : Ty

/-- Projection element of an lvalue (rustc ProjectionElem). -/
inductive ProjectionElem where
  | Field (f : Nat)
  | Index
  | OtherElem
deriving DecidableEq

/-- Storage references (rustc Lvalue). -/
inductive Lvalue where
  | Arg (i : Nat)
  | Temp (i : Nat)
  | Var (i : Nat)
  | ReturnPointer
  | Static
  | Projection (base : Lvalue) (elem : ProjectionElem)
deriving DecidableEq

/-- Operands: a read of a storage location or a constant (rustc Operand). -/
inductive Operand where
  | Consume (l : Lvalue)
  | Constant (c : ConstantData)

/-- MIR binary operators (rustc BinOp). -/
inductive BinOp where
  | Add | Sub | Mul | Div | Rem
  | BitXor | BitAnd | BitOr | Shl | Shr
  | Eq | Lt | Le | Ne | Ge | Gt
deriving DecidableEq

/-- MIR unary operators (rustc UnOp). -/
inductive UnOp where
  | Not
  | Neg
deriving DecidableEq

/-- Aggregate kinds (rustc AggregateKind). -/
inductive AggregateKind where
  | Vec | Tuple | Adt | Closure
deriving DecidableEq

/-- Right-hand sides of assignments (rustc Rvalue).  Fields the
generator never reads (cast kinds, borrow regions, ...) are omitted. -/
inductive Rvalue where
  | Use (operand : Operand)
  | CheckedBinaryOp (op : BinOp) (left right : Operand)
  | BinaryOp (op : BinOp) (left right : Operand)
  | UnaryOp (op : UnOp) (operand : Operand)
  | Aggregate (kind : AggregateKind) (operands : List Operand)
  | Cast
  | Ref
  | Box
  | Len
  | Repeat
  | InlineAsm

/-- Statements: only the assignment kind exists in this MIR fragment. -/
inductive Statement where
  | Assign (lvalue : Lvalue) (rvalue : Rvalue)

/-- Block terminators (rustc TerminatorKind).  `Assert`'s condition,
expected value, message and cleanup target are ignored by the generator
(it only reads `target`), so only the target is modelled; `Call`'s
destination and cleanup are likewise ignored, but its arguments are kept
to state that the handler does not depend on them. -/
inductive TerminatorKind where
  | Goto (target : Nat)
  | Assert (target : Nat)
  | Return
  | Call (func : Operand) (args : List Operand)
  | If (cond : Operand) (tTrue tFalse : Nat)
  | Drop
  | DropAndReplace
  | Unreachable
  | Resume
  | Switch
  | SwitchInt

/-- A basic block: statements plus an optional terminator (the source
calls `.unwrap()` on it). -/
structure BasicBlockData where
  statements : List Statement
  terminator : Option TerminatorKind

/-- An argument declaration: source-level debug name and declared type. -/
structure ArgDecl where
  debug_name : String
  ty : Ty

/-- A temporary declaration: declared type only. -/
structure TempDecl where
  ty : Ty

/-- A local-variable declaration: declared type only. -/
structure VarDecl where
  ty : Ty

/-- The read-only declaration tables plus the basic blocks (the MirData
struct handed over by the front end). -/
structure MirData where
  block_data : List BasicBlockData
  arg_data : List ArgDecl
  temp_data : List TempDecl
  var_data : List VarDecl
  func_return_type : Types

/-- Rust `Vec` indexing: panics (here: errors) when out of bounds. -/
def idx {α : Type} (l : List α) (i : Nat) : Except Err α :=
  match l.get? i with
  | some x => Except.ok x
  | none => Except.error Err.indexOutOfRange

/-- Modelled from the spec: `string_to_type` of the expression module
is not under src/; per spec section 4.5 it maps declared type text to the
semantic type enumeration; unrecognized text is fatal. -/
def string_to_type : String → Except Err Types
  | "bool" => .ok .Bool
  | "i8" => .ok .I8
  | "i16" => .ok .I16
  | "i32" => .ok .I32
  | "i64" => .ok .I64
  | "u8" => .ok .U8
  | "u16" => .ok .U16
  | "u32" => .ok .U32
  | "u64" => .ok .U64
  | _ => .error (.rpError "unsupported declared type")

/-- Modelled from the spec: `is_signed_type` of the expression module
is not under src/; per spec section 4.4 it is the signedness of a
semantic type. -/
def is_signed_type : Types → Bool
  | .I8 | .I16 | .I32 | .I64 => true
  | _ => false

/-- The unsigned fixed-width integer types. -/
def is_unsigned_int_type : Types → Bool
  | .U8 | .U16 | .U32 | .U64 => true
  | _ => false

/-- Bit width of a semantic type. -/
def type_width : Types → Nat
  | .Bool => 1
  | .I8 | .U8 => 8
  | .I16 | .U16 => 16
  | .I32 | .U32 => 32
  | .I64 | .U64 => 64

/-- Operators whose result is boolean. -/
def bool_result_operator : BinaryOperator → Bool
  | .And | .Implication
  | .LessThan | .LessThanOrEqual | .GreaterThan | .GreaterThanOrEqual
  | .Equal | .NotEqual => true
  | _ => false

/-- Modelled from the spec: `determine_evaluation_type` of the
expression module is not under src/; per spec sections 3 and 4.4 it
resolves the semantic type an expression evaluates to: literals carry
their own type, a variable read carries its mapped type, a unary
operator preserves its operand's type, and a binary operator yields
boolean for comparisons and logical connectives and its left operand's
type otherwise.  Unsupported bit-vector widths are fatal. -/
def determine_evaluation_type : Expression → Except Err Types
  | .BooleanLiteral _ => .ok .Bool
  | .SignedBitVector size _ =>
    match size with
    | 8 => .ok .I8
    | 16 => .ok .I16
    | 32 => .ok .I32
    | 64 => .ok .I64
    | _ => .error (.rpError "unsupported bit-vector width")
  | .UnsignedBitVector size _ =>
    match size with
    | 8 => .ok .U8
    | 16 => .ok .U16
    | 32 => .ok .U32
    | 64 => .ok .U64
    | _ => .error (.rpError "unsupported bit-vector width")
  | .VariableMapping v => .ok v.var_type
  | .UnaryExpression _ e => determine_evaluation_type e
  | .BinaryExpression op left _ =>
    if bool_result_operator op then .ok .Bool else determine_evaluation_type left

/-- Modelled from the spec: `substitute_variable_with_expression` of
the expression module is not under src/; per spec section 4.6 it is a
pure recursive rewrite replacing every `VariableMapping`
leaf that matches the target (by name and type) with the replacement
expression. -/
def substitute_variable_with_expression
    (e : Expression) (var : VariableMappingData) (repl : Expression) : Expression :=
  match e with
  | .VariableMapping v => if v = var then repl else .VariableMapping v
  | .UnaryExpression op e1 =>
    .UnaryExpression op (substitute_variable_with_expression e1 var repl)
  | .BinaryExpression op l r =>
    .BinaryExpression op (substitute_variable_with_expression l var repl)
      (substitute_variable_with_expression r var repl)
  | e1 => e1

/-- The arithmetic operator used to form the unchecked result inside a
guard clause. -/
def arith_operator : BinOp → BinaryOperator
  | .Add => .Addition
  | .Sub => .Subtraction
  | .Mul => .Multiplication
  | .Div => .Division
  | .Rem => .Modulo
  | .BitXor => .BitwiseXor
  | .BitAnd => .BitwiseAnd
  | .BitOr => .BitwiseOr
  | .Shl => .BitwiseLeftShift
  | .Shr => .BitwiseRightShift
  | .Eq => .Equal
  | .Lt => .LessThan
  | .Le => .LessThanOrEqual
  | .Ne => .NotEqual
  | .Ge => .GreaterThanOrEqual
  | .Gt => .GreaterThan

/-- Minimum and maximum representable values of a fixed-width integer
type, as bit-vector literal expressions; `none` for boolean. -/
def type_min_max : Types → Option (Expression × Expression)
  | .Bool => none
  | .I8 => some (.SignedBitVector 8 (-128), .SignedBitVector 8 127)
  | .I16 => some (.SignedBitVector 16 (-32768), .SignedBitVector 16 32767)
  | .I32 => some (.SignedBitVector 32 (-2147483648), .SignedBitVector 32 2147483647)
  | .I64 =>
    some (.SignedBitVector 64 (-9223372036854775808), .SignedBitVector 64 9223372036854775807)
  | .U8 => some (.UnsignedBitVector 8 0, .UnsignedBitVector 8 255)
  | .U16 => some (.UnsignedBitVector 16 0, .UnsignedBitVector 16 65535)
  | .U32 => some (.UnsignedBitVector 32 0, .UnsignedBitVector 32 4294967295)
  | .U64 => some (.UnsignedBitVector 64 0, .UnsignedBitVector 64 18446744073709551615)

/-- Modelled from the spec: `overflow_check` of the overflow module
(weakest_precondition/overflow.rs) is not under src/; per spec section
4.4 it conjoins onto the predicate the bound-check pair comparing the
unchecked arithmetic result against the assigned variable's type's
minimum and maximum representable values; an unsupported width is a
fatal configuration error. -/
def overflow_check (wp : Expression) (var : VariableMappingData) (binop : BinOp)
    (lexp rexp : Expression) : Except Err Expression :=
  match type_min_max var.var_type with
  | none => .error (.rpError "unsupported type for overflow check")
  | some bounds =>
    let result := Expression.BinaryExpression (arith_operator binop) lexp rexp
    .ok (.BinaryExpression .And wp
      (.BinaryExpression .And
        (.BinaryExpression .LessThanOrEqual result bounds.2)
        (.BinaryExpression .GreaterThanOrEqual result bounds.1)))

/-- `add_zero_check` (mod.rs lines 404-444): conjoins onto the predicate
a `divisor not equal to zero` clause, with the zero literal carrying the
divisor's evaluated width and signedness; types outside the supported
widths are fatal. -/
def add_zero_check (wp exp : Expression) : Except Err Expression :=
  match determine_evaluation_type exp with
  | .error e => .error e
  | .ok t =>
    let zeroRes : Except Err Expression :=
      if is_signed_type t then
        match t with
        | .I8 => .ok (.SignedBitVector 8 0)
        | .I16 => .ok (.SignedBitVector 16 0)
        | .I32 => .ok (.SignedBitVector 32 0)
        | .I64 => .ok (.SignedBitVector 64 0)
        | _ => .error (.rpError "Unimplemented checkeddAdd right-hand operand type")
      else
        match t with
        | .U8 => .ok (.UnsignedBitVector 8 0)
        | .U16 => .ok (.UnsignedBitVector 16 0)
        | .U32 => .ok (.UnsignedBitVector 32 0)
        | .U64 => .ok (.UnsignedBitVector 64 0)
        | _ => .error (.rpError "Unimplemented checkeddAdd right-hand operand type")
    match zeroRes with
    | .error e => .error e
    | .ok zero => .ok (.BinaryExpression .And wp (.BinaryExpression .NotEqual exp zero))

/-- Whether `pat` is an initial segment of `l` (char lists). -/
def isPrefList : List Char → List Char → Bool
  | [], _ => true
  | _ :: _, [] => false
  | a :: arest, b :: brest => a == b && isPrefList arest brest

/-- Whether `pat` occurs as a contiguous segment anywhere in `s`. -/
def containsSub : List Char → List Char → Bool
  | [], pat => isPrefList pat []
  | c :: rest, pat => isPrefList pat (c :: rest) || containsSub rest pat

/-- Models Rust's `str::contains` with a literal pattern: a substring
test anywhere in the string. -/
def strContains (s pat : String) : Bool :=
  containsSub s.data pat.data

/-- Text of an integer constant, modelling its Debug rendering. -/
def constIntText : ConstInt → String
  | .I8 i => toString i
  | .I16 i => toString i
  | .I32 i => toString i
  | .I64 i => toString i
  | .U8 u => toString u
  | .U16 u => toString u
  | .U32 u => toString u
  | .U64 u => toString u
  | .OtherInt => "int"

/-- Text of a constant value, modelling its Debug rendering. -/
def constValText : ConstVal → String
  | .Bool b => toString b
  | .Integral ci => constIntText ci
  | .OtherVal => "const"

/-- Models rustc's `format!` Debug rendering of a literal: an `item`
renders its full path text (this is where a panic entry point's name
shows up), a value renders its constant. -/
def litDebugText : Literal → String
  | .value v => constValText v
  | .item path => path
  | .promoted => "promoted"

/-- Models rustc's Debug rendering of an lvalue (used only to name
tuple-aggregate elements). -/
def lvFmt : Lvalue → String
  | .Arg i => "arg" ++ toString i
  | .Temp i => "tmp" ++ toString i
  | .Var i => "var" ++ toString i
  | .ReturnPointer => "return"
  | .Static => "static"
  | .Projection base _ => lvFmt base ++ ".proj"

/-- Models rustc's Debug rendering of an operand (mod.rs line 327). -/
def opDebug : Operand → String
  | .Consume l => lvFmt l
  | .Constant c => "const " ++ litDebugText c.literal

/-- `gen_lvalue` (mod.rs lines 458-566): resolves a storage reference to
a `VariableMappingData`.  Arguments keep their source debug name,
temporaries become `tmp<index>` (a tuple-typed temporary takes its first
element's type), locals become `var<index>`, the return slot is named
`return`, and a one-level field projection appends `.<field>` to the
base's name. -/
def gen_lvalue (lvalue : Lvalue) (data : MirData) : Except Err VariableMappingData :=
  match lvalue with
  | .Arg i =>
    match idx data.arg_data i with
    | .error e => .error e
    | .ok d =>
      match string_to_type (tyToString d.ty) with
      | .error e => .error e
      | .ok t => .ok ⟨d.debug_name, t⟩
  | .Temp i =>
    match idx data.temp_data i with
    | .error e => .error e
    | .ok d =>
      let tyStr :=
        match d.ty with
        | .tuple (t0 :: _) => tyToString t0
        | _ => tyToString d.ty
      match string_to_type tyStr with
      | .error e => .error e
      | .ok t => .ok ⟨"tmp" ++ toString i, t⟩
  | .Var i =>
    match idx data.var_data i with
    | .error e => .error e
    | .ok d =>
      match string_to_type (tyToString d.ty) with
      | .error e => .error e
      | .ok t => .ok ⟨"var" ++ toString i, t⟩
  | .ReturnPointer => .ok ⟨"return", data.func_return_type⟩
  | .Static => .error .unimpl
  | .Projection base elem =>
    match projection_index elem with
    | .error e => .error e
    | .ok _ =>
      match projection_base_info base elem data with
      | .error e => .error e
      | .ok info =>
        match projection_index elem with
        | .error e => .error e
        | .ok index2 =>
          match string_to_type info.2 with
          | .error e => .error e
          | .ok t => .ok ⟨info.1 ++ "." ++ index2, t⟩
where
  /-- The projected field index as text (mod.rs lines 501-507 and
  550-557, performed twice in the source). -/
  projection_index : ProjectionElem → Except Err String
    | .Field f => .ok (toString f)
    | .Index => .error .unimpl
    | .OtherElem => .error .unimpl
  /-- Name and type text of the projection base (mod.rs lines 513-547). -/
  projection_base_info (base : Lvalue) (elem : ProjectionElem) (data : MirData) :
      Except Err (String × String) :=
    match base with
    | .Arg i =>
      match idx data.arg_data i with
      | .error e => .error e
      | .ok d => .ok (d.debug_name, tyToString d.ty)
    | .Temp i =>
      match idx data.temp_data i with
      | .error e => .error e
      | .ok d =>
        match d.ty with
        | .tuple (t0 :: _) => .ok ("tmp" ++ toString i, tyToString t0)
        | .tuple [] => .error .indexOutOfRange
        | _ => .error .unimpl
    | .Var i =>
      match elem with
      | .Field f =>
        match idx data.var_data i with
        | .error e => .error e
        | .ok d =>
          match d.ty with
          | .tuple ts =>
            match ts.get? f with
            | some te => .ok ("var" ++ toString i, tyToString te)
            | none => .error .indexOutOfRange
          | _ => .error .unimpl
      | _ => .error .unimpl
    | _ => .error .unimpl

/-- `gen_expression` (mod.rs lines 582-659): an operand becomes either a
variable read or a bit-vector/boolean literal; anything else is fatal. -/
def gen_expression (operand : Operand) (data : MirData) : Except Err Expression :=
  match operand with
  | .Consume l =>
    match gen_lvalue l data with
    | .error e => .error e
    | .ok v => .ok (.VariableMapping v)
  | .Constant c =>
    match c.literal with
    | .value v =>
      match v with
      | .Bool b => .ok (.BooleanLiteral b)
      | .Integral ci =>
        match ci with
        | .I8 i => .ok (.SignedBitVector 8 i)
        | .I16 i => .ok (.SignedBitVector 16 i)
        | .I32 i => .ok (.SignedBitVector 32 i)
        | .I64 i => .ok (.SignedBitVector 64 i)
        | .U8 u => .ok (.UnsignedBitVector 8 u)
        | .U16 u => .ok (.UnsignedBitVector 16 u)
        | .U32 u => .ok (.UnsignedBitVector 32 u)
        | .U64 u => .ok (.UnsignedBitVector 64 u)
        | .OtherInt => .error .unimpl
      | .OtherVal => .error .unimpl
    | .item _ => .error .unimpl
    | .promoted => .error .unimpl

/-- `gen_ty` (mod.rs lines 372-389): the declared type of an operand. -/
def gen_ty (operand : Operand) (data : MirData) : Except Err Types :=
  match operand with
  | .Constant c => string_to_type (tyToString c.ty)
  | .Consume lv =>
    match lv with
    | .Arg i =>
      match idx data.arg_data i with
      | .error e => .error e
      | .ok d => string_to_type (tyToString d.ty)
    | .Temp i =>
      match idx data.temp_data i with
      | .error e => .error e
      | .ok d => string_to_type (tyToString d.ty)
    | .Var i =>
      match idx data.var_data i with
      | .error e => .error e
      | .ok d => string_to_type (tyToString d.ty)
    | _ => .error .unimpl

/-- The operator selection and guard insertion of the CheckedBinaryOp
arm (mod.rs lines 192-229): add/sub/mul conjoin the overflow guard pair,
div/rem conjoin the overflow guard pair only for signed operands and
always conjoin the divisor-zero guard, shifts add no guard, and any
other checked operator is fatal.  Returns the updated predicate and the
chosen expression operator. -/
def checked_op_wp (wp : Expression) (var : VariableMappingData) (binop : BinOp)
    (lexp rexp : Expression) : Except Err (Expression × BinaryOperator) :=
  match binop with
  | .Add =>
    match overflow_check wp var .Add lexp rexp with
    | .error e => .error e
    | .ok w => .ok (w, .Addition)
  | .Sub =>
    match overflow_check wp var .Sub lexp rexp with
    | .error e => .error e
    | .ok w => .ok (w, .Subtraction)
  | .Mul =>
    match overflow_check wp var .Mul lexp rexp with
    | .error e => .error e
    | .ok w => .ok (w, .Multiplication)
  | .Div =>
    match determine_evaluation_type rexp with
    | .error e => .error e
    | .ok t =>
      match (if is_signed_type t then overflow_check wp var .Div lexp rexp else .ok wp) with
      | .error e => .error e
      | .ok w =>
        match add_zero_check w rexp with
        | .error e => .error e
        | .ok w2 => .ok (w2, .Division)
  | .Rem =>
    match determine_evaluation_type rexp with
    | .error e => .error e
    | .ok t =>
      match (if is_signed_type t then overflow_check wp var .Rem lexp rexp else .ok wp) with
      | .error e => .error e
      | .ok w =>
        match add_zero_check w rexp with
        | .error e => .error e
        | .ok w2 => .ok (w2, .Modulo)
  | .Shl => .ok (wp, .BitwiseLeftShift)
  | .Shr => .ok (wp, .BitwiseRightShift)
  | _ => .error (.rpError "Unsupported checked binary operation!")

/-- The operator selection and guard insertion of the plain BinaryOp arm
(mod.rs lines 244-289): identical guards to the checked arm for the
arithmetic operators, and the bitwise/shift/relational/equality
operators add no guard. -/
def binary_op_wp (wp : Expression) (var : VariableMappingData) (binop : BinOp)
    (lexp rexp : Expression) : Except Err (Expression × BinaryOperator) :=
  match binop with
  | .Add =>
    match overflow_check wp var .Add lexp rexp with
    | .error e => .error e
    | .ok w => .ok (w, .Addition)
  | .Sub =>
    match overflow_check wp var .Sub lexp rexp with
    | .error e => .error e
    | .ok w => .ok (w, .Subtraction)
  | .Mul =>
    match overflow_check wp var .Mul lexp rexp with
    | .error e => .error e
    | .ok w => .ok (w, .Multiplication)
  | .Div =>
    match determine_evaluation_type rexp with
    | .error e => .error e
    | .ok t =>
      match (if is_signed_type t then overflow_check wp var .Div lexp rexp else .ok wp) with
      | .error e => .error e
      | .ok w =>
        match add_zero_check w rexp with
        | .error e => .error e
        | .ok w2 => .ok (w2, .Division)
  | .Rem =>
    match determine_evaluation_type rexp with
    | .error e => .error e
    | .ok t =>
      match (if is_signed_type t then overflow_check wp var .Rem lexp rexp else .ok wp) with
      | .error e => .error e
      | .ok w =>
        match add_zero_check w rexp with
        | .error e => .error e
        | .ok w2 => .ok (w2, .Modulo)
  | .BitOr => .ok (wp, .BitwiseOr)
  | .BitAnd => .ok (wp, .BitwiseAnd)
  | .BitXor => .ok (wp, .BitwiseXor)
  | .Shl => .ok (wp, .BitwiseLeftShift)
  | .Shr => .ok (wp, .BitwiseRightShift)
  | .Lt => .ok (wp, .LessThan)
  | .Le => .ok (wp, .LessThanOrEqual)
  | .Gt => .ok (wp, .GreaterThan)
  | .Ge => .ok (wp, .GreaterThanOrEqual)
  | .Eq => .ok (wp, .Equal)
  | .Ne => .ok (wp, .NotEqual)

/-- Operator choice for a MIR unary operator (mod.rs lines 300-309): a
complement becomes logical not when the operand's evaluated type is
boolean and bitwise not otherwise; negation is arithmetic negation. -/
def unary_operator_for (unop : UnOp) (exp : Expression) : Except Err UnaryOperator :=
  match unop with
  | .Not =>
    match determine_evaluation_type exp with
    | .error e => .error e
    | .ok t => .ok (if t = Types.Bool then UnaryOperator.Not else UnaryOperator.BitwiseNot)
  | .Neg => .ok .Negation

/-- The element expressions a tuple aggregate pushes (mod.rs lines
323-332): one variable mapping per element, named by the operand's
debug rendering and typed by `gen_ty`. -/
def aggregate_exprs (ops : List Operand) (data : MirData) : Except Err (List Expression) :=
  match ops with
  | [] => .ok []
  | o :: rest =>
    match gen_ty o data with
    | .error e => .error e
    | .ok t =>
      match aggregate_exprs rest data with
      | .error e => .error e
      | .ok es => .ok (Expression.VariableMapping ⟨opDebug o, t⟩ :: es)

/-- The rvalue classification of `gen_stmt` (mod.rs lines 188-350):
returns the (possibly guard-extended) predicate, the substitution key (a
checked operation qualifies the target's name with `.0`), and the list
of replacement expressions to substitute in turn. -/
def gen_rvalue_core (wp : Expression) (var : VariableMappingData) (rvalue : Rvalue)
    (data : MirData) : Except Err (Expression × VariableMappingData × List Expression) :=
  match rvalue with
  | .CheckedBinaryOp binop lop rop =>
    match gen_expression lop data with
    | .error e => .error e
    | .ok lexp =>
      match gen_expression rop data with
      | .error e => .error e
      | .ok rexp =>
        match checked_op_wp wp var binop lexp rexp with
        | .error e => .error e
        | .ok pr =>
          .ok (pr.1, ⟨var.name ++ ".0", var.var_type⟩,
            [Expression.BinaryExpression pr.2 lexp rexp])
  | .BinaryOp binop lop rop =>
    match gen_expression lop data with
    | .error e => .error e
    | .ok lexp =>
      match gen_expression rop data with
      | .error e => .error e
      | .ok rexp =>
        match binary_op_wp wp var binop lexp rexp with
        | .error e => .error e
        | .ok pr => .ok (pr.1, var, [Expression.BinaryExpression pr.2 lexp rexp])
  | .UnaryOp unop vop =>
    match gen_expression vop data with
    | .error e => .error e
    | .ok exp =>
      match unary_operator_for unop exp with
      | .error e => .error e
      | .ok op => .ok (wp, var, [Expression.UnaryExpression op exp])
  | .Use operand =>
    match gen_expression operand data with
    | .error e => .error e
    | .ok exp => .ok (wp, var, [exp])
  | .Aggregate kind ops =>
    match kind with
    | .Tuple =>
      match aggregate_exprs ops data with
      | .error e => .error e
      | .ok es => .ok (wp, var, es)
    | _ => .error (.rpError "Unsupported aggregate: only tuples are supported")
  | .Cast => .ok (wp, var, [Expression.VariableMapping var])
  | .Ref => .ok (wp, var, [Expression.VariableMapping var])
  | .Box => .error .unimpl
  | .Len => .error .unimpl
  | .Repeat => .error .unimpl
  | .InlineAsm => .error .unimpl

/-- `gen_stmt` (mod.rs lines 165-361): resolve the assignment target,
classify the right-hand side, then substitute the (possibly requalified)
target variable with each produced expression in the (possibly
guard-extended) predicate. -/
def gen_stmt (wp : Expression) (stmt : Statement) (data : MirData) :
    Except Err (Option Expression) :=
  match stmt with
  | .Assign lvalue rvalue =>
    match gen_lvalue lvalue data with
    | .error e => .error e
    | .ok var =>
      match gen_rvalue_core wp var rvalue data with
      | .error e => .error e
      | .ok triple =>
        .ok (some (triple.2.2.foldl
          (fun w e => substitute_variable_with_expression w triple.2.1 e) triple.1))

/-- Rust's `Option::unwrap`: panics (errors) on `None`. -/
def unwrapO : Option Expression → Except Err Expression
  | some e => .ok e
  | none => .error .unwrapNone

/-- The statement loop of `gen` (mod.rs lines 130-141): fold the
already-reversed statement list through `gen_stmt`, unwrapping the
accumulated predicate before each step. -/
def foldStmts (data : MirData) (stmts : List Statement) (wp : Option Expression) :
    Except Err (Option Expression) :=
  match stmts with
  | [] => .ok wp
  | stmt :: rest =>
    match wp with
    | none => .error .unwrapNone
    | some w =>
      match gen_stmt w stmt data with
      | .error e => .error e
      | .ok wp2 => foldStmts data rest wp2

/-- The condition resolution of the If arm (mod.rs lines 80-95): a
constant boolean literal becomes a `BooleanLiteral`, any other constant
is fatal, and a consumed lvalue becomes a `VariableMapping` read. -/
def gen_condition (cond : Operand) (data : MirData) : Except Err Expression :=
  match cond with
  | .Constant c =>
    match c.literal with
    | .value v =>
      match v with
      | .Bool b => .ok (.BooleanLiteral b)
      | _ => .error .unreach
    | _ => .error .unimpl
  | .Consume l =>
    match gen_lvalue l data with
    | .error e => .error e
    | .ok v => .ok (.VariableMapping v)

/-- One unfolding of `gen` (mod.rs lines 38-150), parametric in the
recursive call.  The Return arm and the panic-recognizing Call arm
return early, before the statement loop runs; Goto/Assert/If resolve the
successor predicate(s) and then fold the block's statements in reverse
order; every other terminator is fatal. -/
def genBody
    (genRec : Nat → MirData → Option Expression → Option (Except Err (Option Expression)))
    (index : Nat) (data : MirData) (post_expr : Option Expression) :
    Option (Except Err (Option Expression)) :=
  match data.block_data.get? index with
  | none => some (.error .indexOutOfRange)
  | some blk =>
    match blk.terminator with
    | none => some (.error .unwrapNone)
    | some term =>
      match term with
      | .Assert target =>
        match genRec target data post_expr with
        | none => none
        | some (.error e) => some (.error e)
        | some (.ok wp) => some (foldStmts data blk.statements.reverse wp)
      | .Goto target =>
        match genRec target data post_expr with
        | none => none
        | some (.error e) => some (.error e)
        | some (.ok wp) => some (foldStmts data blk.statements.reverse wp)
      | .Return => some (.ok post_expr)
      | .Call func _args =>
        match func with
        | .Constant c =>
          if strContains (litDebugText c.literal) "begin_panic" then
            some (.ok (some (.BooleanLiteral false)))
          else
            some (.error .unreach)
        | .Consume _ => some (.error .unimpl)
      | .If cond tTrue tFalse =>
        match genRec tTrue data post_expr with
        | none => none
        | some (.error e) => some (.error e)
        | some (.ok wp_if) =>
          match genRec tFalse data post_expr with
          | none => none
          | some (.error e) => some (.error e)
          | some (.ok wp_else) =>
            match gen_condition cond data with
            | .error e => some (.error e)
            | .ok condition =>
              match unwrapO wp_if with
              | .error e => some (.error e)
              | .ok wpi =>
                match unwrapO wp_else with
                | .error e => some (.error e)
                | .ok wpe =>
                  some (foldStmts data blk.statements.reverse
                    (some (.BinaryExpression .And
                      (.BinaryExpression .Implication condition wpi)
                      (.BinaryExpression .Implication
                        (.UnaryExpression .Not condition) wpe))))
      | .Drop => some (.error .unimpl)
      | .DropAndReplace => some (.error .unimpl)
      | .Unreachable => some (.error .unimpl)
      | .Resume => some (.error .unimpl)
      | .Switch => some (.error .unimpl)
      | .SwitchInt => some (.error .unimpl)

/-- `gen` (mod.rs lines 38-150) with a fuel bound on the recursion
depth: `none` means the recursion did not bottom out within `fuel`
nested calls (the Rust source recurses without any depth check). -/
def gen : Nat → Nat → MirData → Option Expression → Option (Except Err (Option Expression))
  | 0, _, _, _ => none
  | fuel + 1, index, data, post_expr =>
    genBody (fun t d p => gen fuel t d p) index data post_expr

/-- Successor blocks a terminator recurses into. -/
def succs : TerminatorKind → List Nat
  | .Goto t => [t]
  | .Assert t => [t]
  | .If _ t f => [t, f]
  | _ => []

/-- The edge relation of the CFG as `gen` walks it. -/
def edge (data : MirData) (i j : Nat) : Prop :=
  ∃ blk term, data.block_data.get? i = some blk ∧ blk.terminator = some term ∧ j ∈ succs term

/-- `gen` exhausts every fuel bound at this input: the recursion never
bottoms out, so the Rust source would recurse without bound. -/
def divergesAt (data : MirData) (index : Nat) (post : Option Expression) : Prop :=
  ∀ fuel, gen fuel index data post = none

/-! ### Concrete instances used by the witnesses and counterexamples -/

/-- The trivially true postcondition. -/
def pTrue : Expression := .BooleanLiteral true

/-- A one-block CFG whose Goto is a self back-edge (a loop). -/
def loopData : MirData := ⟨[⟨[], some (.Goto 0)⟩], [], [], [], .Bool⟩

/-- An acyclic two-block chain: block 0 jumps to block 1, which returns. -/
def chainData : MirData := ⟨[⟨[], some (.Goto 1)⟩, ⟨[], some .Return⟩], [], [], [], .Bool⟩

/-- A measure decreasing along every edge of `chainData`. -/
def chainMeasure : Nat → Nat
  | 0 => 1
  | _ => 0

/-- A branch CFG: block 0 branches on the boolean argument `b` into two
returning blocks. -/
def c1Data : MirData :=
  ⟨[⟨[], some (.If (.Consume (.Arg 0)) 1 2)⟩, ⟨[], some .Return⟩, ⟨[], some .Return⟩],
    [⟨"b", .named "bool"⟩], [], [], .Bool⟩

/-- The assignment `var0 := 5i32`. -/
def c2Stmt : Statement :=
  .Assign (.Var 0) (.Use (.Constant ⟨.value (.Integral (.I32 5)), .named "i32"⟩))

/-- A one-block CFG whose Return block carries the assignment `c2Stmt`. -/
def c2Data : MirData := ⟨[⟨[c2Stmt], some .Return⟩], [], [], [⟨.named "i32"⟩], .I32⟩

/-- A postcondition reading the local the Return block assigns. -/
def c2Post : Expression := .VariableMapping ⟨"var0", .I32⟩

/-- A constant callee whose literal text names the panic entry point. -/
def panicConst : ConstantData := ⟨.item "std::panicking::begin_panic::h0b0c1d2e", .named "fn"⟩

/-- A constant callee whose literal text does not name the panic entry
point. -/
def otherConst : ConstantData := ⟨.item "std::mem::drop", .named "fn"⟩

/-- A one-block CFG calling the panic entry point. -/
def c4Data : MirData := ⟨[⟨[], some (.Call (.Constant panicConst) [])⟩], [], [], [], .Bool⟩

/-- A one-block CFG calling a non-panic constant. -/
def c4DataB : MirData := ⟨[⟨[], some (.Call (.Constant otherConst) [])⟩], [], [], [], .Bool⟩

/-- Declarations for `tmp0 := a / b` with both arguments `u8`. -/
def c5Data : MirData :=
  ⟨[], [⟨"a", .named "u8"⟩, ⟨"b", .named "u8"⟩], [⟨.tuple [.named "u8", .named "bool"]⟩],
    [], .U8⟩

/-- The checked division `tmp0 := Checked(a / b)`. -/
def c5Stmt : Statement :=
  .Assign (.Temp 0) (.CheckedBinaryOp .Div (.Consume (.Arg 0)) (.Consume (.Arg 1)))

/-- Declarations for `tmp0 := x + y` with both arguments `i32`. -/
def c6Data : MirData :=
  ⟨[], [⟨"x", .named "i32"⟩, ⟨"y", .named "i32"⟩], [⟨.tuple [.named "i32", .named "bool"]⟩],
    [], .I32⟩

/-- The checked addition `tmp0 := Checked(x + y)`. -/
def c6Stmt : Statement :=
  .Assign (.Temp 0) (.CheckedBinaryOp .Add (.Consume (.Arg 0)) (.Consume (.Arg 1)))

/-- A three-element tuple aggregate of `i32` constants. -/
def c7Ops : List Operand :=
  [.Constant ⟨.value (.Integral (.I32 1)), .named "i32"⟩,
   .Constant ⟨.value (.Integral (.I32 2)), .named "i32"⟩,
   .Constant ⟨.value (.Integral (.I32 3)), .named "i32"⟩]

/-- Declarations giving `tmp0` a three-element tuple type. -/
def c7Data : MirData :=
  ⟨[], [], [⟨.tuple [.named "i32", .named "i32", .named "i32"]⟩], [], .I32⟩

/-- The assignment `tmp0 := (1i32, 2i32, 3i32)`: a tuple aggregate whose
arity is three, not two. -/
def c7Stmt : Statement := .Assign (.Temp 0) (.Aggregate .Tuple c7Ops)

/-- Declarations with a boolean argument `p`, an integer argument `n`,
and matching locals. -/
def c8Data : MirData :=
  ⟨[], [⟨"p", .named "bool"⟩, ⟨"n", .named "i32"⟩], [],
    [⟨.named "bool"⟩, ⟨.named "i32"⟩], .Bool⟩

/-- A declaration table whose first argument is named `tmp0`, colliding
with the name generated for the first temporary. -/
def c9Data : MirData := ⟨[], [⟨"tmp0", .named "i32"⟩], [⟨.named "i32"⟩], [], .I32⟩

/-- The guard-extended predicate produced for `Checked(x + y)` over
`i32` starting from the predicate `true`: both overflow bounds
conjoined. -/
def c6Guarded : Expression :=
  .BinaryExpression .And pTrue
    (.BinaryExpression .And
      (.BinaryExpression .LessThanOrEqual
        (.BinaryExpression .Addition (.VariableMapping ⟨"x", .I32⟩)
          (.VariableMapping ⟨"y", .I32⟩))
        (.SignedBitVector 32 2147483647))
      (.BinaryExpression .GreaterThanOrEqual
        (.BinaryExpression .Addition (.VariableMapping ⟨"x", .I32⟩)
          (.VariableMapping ⟨"y", .I32⟩))
        (.SignedBitVector 32 (-2147483648))))

/-- The element expressions produced for the three-element tuple
aggregate `c7Ops`. -/
def c7Exprs : List Expression :=
  [.VariableMapping ⟨"const 1", .I32⟩,
   .VariableMapping ⟨"const 2", .I32⟩,
   .VariableMapping ⟨"const 3", .I32⟩]

/-! ### Helper lemmas -/

/-- The single-step unfolding of the fuelled recursion. -/
theorem gen_succ (fuel index : Nat) (data : MirData) (post : Option Expression) :
    gen (fuel + 1) index data post = genBody (fun t d p => gen fuel t d p) index data post :=
  rfl

/-- Appending different suffixes to the same name yields different names. -/
theorem append_suffix_ne (s : String) (a b : String) (h : a.data ≠ b.data) :
    s ++ a ≠ s ++ b := by
  intro he
  have h2 : (s ++ a).data = (s ++ b).data := congrArg String.data he
  rw [String.data_append, String.data_append] at h2
  exact h (List.append_cancel_left h2)

/-- A `tmp`-prefixed name is never a `var`-prefixed name. -/
theorem tmp_ne_var (s t : String) : ("tmp" ++ s : String) ≠ "var" ++ t := by
  intro h
  have h2 : ("tmp" ++ s).data = ("var" ++ t).data := congrArg String.data h
  rw [String.data_append, String.data_append] at h2
  have h3 : "tmp".data = ['t', 'm', 'p'] := by decide
  have h4 : "var".data = ['v', 'a', 'r'] := by decide
  rw [h3, h4] at h2
  simp only [List.cons_append, List.cons.injEq] at h2
  exact absurd h2.1 (by decide)

/-- A `tmp`-prefixed name is never the name `return`. -/
theorem tmp_ne_return (s : String) : ("tmp" ++ s : String) ≠ "return" := by
  intro h
  have h2 : ("tmp" ++ s).data = "return".data := congrArg String.data h
  rw [String.data_append] at h2
  have h3 : "tmp".data = ['t', 'm', 'p'] := by decide
  have h4 : "return".data = ['r', 'e', 't', 'u', 'r', 'n'] := by decide
  rw [h3, h4] at h2
  simp only [List.cons_append, List.cons.injEq] at h2
  exact absurd h2.1 (by decide)

/-- A `var`-prefixed name is never the name `return`. -/
theorem var_ne_return (s : String) : ("var" ++ s : String) ≠ "return" := by
  intro h
  have h2 : ("var" ++ s).data = "return".data := congrArg String.data h
  rw [String.data_append] at h2
  have h3 : "var".data = ['v', 'a', 'r'] := by decide
  have h4 : "return".data = ['r', 'e', 't', 'u', 'r', 'n'] := by decide
  rw [h3, h4] at h2
  simp only [List.cons_append, List.cons.injEq] at h2
  exact absurd h2.1 (by decide)

/-- A successful temporary resolution names it `tmp` plus its index. -/
theorem gen_lvalue_temp_name (data : MirData) (i : Nat) (vi : VariableMappingData)
    (h : gen_lvalue (.Temp i) data = .ok vi) : vi.name = "tmp" ++ toString i := by
  simp only [gen_lvalue] at h
  split at h
  · exact Except.noConfusion h
  · split at h
    · exact Except.noConfusion h
    · injection h with h2
      rw [← h2]

/-- A successful local-variable resolution names it `var` plus its
index. -/
theorem gen_lvalue_var_name (data : MirData) (j : Nat) (vj : VariableMappingData)
    (h : gen_lvalue (.Var j) data = .ok vj) : vj.name = "var" ++ toString j := by
  simp only [gen_lvalue] at h
  split at h
  · exact Except.noConfusion h
  · split at h
    · exact Except.noConfusion h
    · injection h with h2
      rw [← h2]

/-- Correctness of the initial-segment test. -/
theorem isPrefList_iff (p : List Char) : ∀ l, isPrefList p l = true ↔ ∃ suf, l = p ++ suf := by
  induction p with
  | nil =>
    intro l
    simp only [isPrefList, List.nil_append]
    exact ⟨fun _ => ⟨l, rfl⟩, fun _ => trivial⟩
  | cons a arest ih =>
    intro l
    cases l with
    | nil =>
      simp only [isPrefList]
      constructor
      · intro h; exact absurd h (by simp)
      · rintro ⟨suf, hsuf⟩; exact absurd hsuf (by simp)
    | cons b brest =>
      simp only [isPrefList, Bool.and_eq_true, beq_iff_eq, ih, List.cons_append,
        List.cons.injEq]
      constructor
      · rintro ⟨hab, suf, hsuf⟩; exact ⟨suf, hab.symm, hsuf⟩
      · rintro ⟨suf, hba, hsuf⟩; exact ⟨hba.symm, suf, hsuf⟩

/-- Correctness of the substring test: it succeeds exactly when the
pattern occurs contiguously somewhere in the list. -/
theorem containsSub_iff (pat : List Char) :
    ∀ l, containsSub l pat = true ↔ ∃ pre suf, l = pre ++ pat ++ suf := by
  intro l
  induction l with
  | nil =>
    simp only [containsSub, isPrefList_iff]
    constructor
    · rintro ⟨suf, hsuf⟩
      exact ⟨[], suf, by simpa using hsuf⟩
    · rintro ⟨pre, suf, hsuf⟩
      have h0 : pre = [] ∧ pat ++ suf = [] := by
        have := hsuf.symm
        rw [List.append_assoc] at this
        exact List.append_eq_nil.mp this
      exact ⟨suf, by rw [← h0.2]⟩
  | cons c rest ih =>
    simp only [containsSub, Bool.or_eq_true, isPrefList_iff, ih]
    constructor
    · rintro (⟨suf, hsuf⟩ | ⟨pre, suf, hsuf⟩)
      · exact ⟨[], suf, by simpa using hsuf⟩
      · exact ⟨c :: pre, suf, by simp [hsuf]⟩
    · rintro ⟨pre, suf, hsuf⟩
      cases pre with
      | nil => exact Or.inl ⟨suf, by simpa using hsuf⟩
      | cons p ps =>
        simp only [List.cons_append, List.cons.injEq] at hsuf
        exact Or.inr ⟨ps, suf, hsuf.2⟩

/-- `strContains` succeeds exactly when the pattern's characters occur
contiguously anywhere in the string's characters. -/
theorem strContains_iff (s pat : String) :
    strContains s pat = true ↔ ∃ pre suf, s.data = pre ++ pat.data ++ suf :=
  containsSub_iff pat.data s.data

/-- On the one-block self-loop CFG the recursion never bottoms out. -/
theorem gen_loop_none (post : Option Expression) :
    ∀ fuel, gen fuel 0 loopData post = none := by
  intro fuel
  induction fuel with
  | zero => rfl
  | succ n ih =>
    rw [gen_succ]
    have hb : loopData.block_data.get? 0 = some ⟨[], some (.Goto 0)⟩ := rfl
    simp only [genBody, hb, ih]

/-- If a measure decreases along every CFG edge, `gen` bottoms out
within `m index` nested calls: fuel exceeding the measure is enough. -/
theorem gen_measure_no_none (data : MirData) (m : Nat → Nat)
    (hm : ∀ i j, edge data i j → m j < m i) :
    ∀ fuel index post, m index < fuel → gen fuel index data post ≠ none := by
  intro fuel
  induction fuel with
  | zero => intro index post h; exact absurd h (Nat.not_lt_zero _)
  | succ n ih =>
    intro index post h
    rw [gen_succ]
    cases hb : data.block_data.get? index with
    | none =>
      simp only [genBody, hb]
      exact Option.some_ne_none _
    | some blk =>
      cases ht : blk.terminator with
      | none =>
        simp only [genBody, hb, ht]
        exact Option.some_ne_none _
      | some term =>
        cases term with
        | Goto t =>
          have he : edge data index t := ⟨blk, .Goto t, hb, ht, by simp [succs]⟩
          have hlt : m t < n :=
            Nat.lt_of_lt_of_le (hm _ _ he) (Nat.lt_succ_iff.mp h)
          cases hg : gen n t data post with
          | none => exact absurd hg (ih t post hlt)
          | some r =>
            cases r with
            | error e =>
              simp only [genBody, hb, ht, hg]
              exact Option.some_ne_none _
            | ok w =>
              simp only [genBody, hb, ht, hg]
              exact Option.some_ne_none _
        | Assert t =>
          have he : edge data index t := ⟨blk, .Assert t, hb, ht, by simp [succs]⟩
          have hlt : m t < n :=
            Nat.lt_of_lt_of_le (hm _ _ he) (Nat.lt_succ_iff.mp h)
          cases hg : gen n t data post with
          | none => exact absurd hg (ih t post hlt)
          | some r =>
            cases r with
            | error e =>
              simp only [genBody, hb, ht, hg]
              exact Option.some_ne_none _
            | ok w =>
              simp only [genBody, hb, ht, hg]
              exact Option.some_ne_none _
        | Return =>
          simp only [genBody, hb, ht]
          exact Option.some_ne_none _
        | Call func args =>
          cases func with
          | Constant c =>
            simp only [genBody, hb, ht]
            split
            · exact Option.some_ne_none _
            · exact Option.some_ne_none _
          | Consume l =>
            simp only [genBody, hb, ht]
            exact Option.some_ne_none _
        | If cond tT tF =>
          have heT : edge data index tT := ⟨blk, .If cond tT tF, hb, ht, by simp [succs]⟩
          have heF : edge data index tF := ⟨blk, .If cond tT tF, hb, ht, by simp [succs]⟩
          have hltT : m tT < n :=
            Nat.lt_of_lt_of_le (hm _ _ heT) (Nat.lt_succ_iff.mp h)
          have hltF : m tF < n :=
            Nat.lt_of_lt_of_le (hm _ _ heF) (Nat.lt_succ_iff.mp h)
          cases hgT : gen n tT data post with
          | none => exact absurd hgT (ih tT post hltT)
          | some rT =>
            cases rT with
            | error e =>
              simp only [genBody, hb, ht, hgT]
              exact Option.some_ne_none _
            | ok wT =>
              cases hgF : gen n tF data post with
              | none => exact absurd hgF (ih tF post hltF)
              | some rF =>
                cases rF with
                | error e =>
                  simp only [genBody, hb, ht, hgT, hgF]
                  exact Option.some_ne_none _
                | ok wF =>
                  simp only [genBody, hb, ht, hgT, hgF]
                  cases gen_condition cond data with
                  | error e => exact Option.some_ne_none _
                  | ok c =>
                    cases unwrapO wT with
                    | error e => exact Option.some_ne_none _
                    | ok wpi =>
                      cases unwrapO wF with
                      | error e => exact Option.some_ne_none _
                      | ok wpe => exact Option.some_ne_none _
        | Drop =>
          simp only [genBody, hb, ht]
          exact Option.some_ne_none _
        | DropAndReplace =>
          simp only [genBody, hb, ht]
          exact Option.some_ne_none _
        | Unreachable =>
          simp only [genBody, hb, ht]
          exact Option.some_ne_none _
        | Resume =>
          simp only [genBody, hb, ht]
          exact Option.some_ne_none _
        | Switch =>
          simp only [genBody, hb, ht]
          exact Option.some_ne_none _
        | SwitchInt =>
          simp only [genBody, hb, ht]
          exact Option.some_ne_none _

/-! ### Claims -/

/-- Claim C1: for a block whose terminator is `ConditionalBranch(c,
tTrue, tFalse)`, the predicate `gen` computes from the terminator is
exactly `(c implies wp(tTrue)) and (not c implies wp(tFalse))` with
`wp(tTrue)`, `wp(tFalse)` the recursively computed successor predicates
(the block's statements are then folded over that conjunction), and the
resolved condition is a variable read or a boolean literal. -/
theorem c1_conditional_branch_wp
    (fuel index : Nat) (data : MirData) (blk : BasicBlockData)
    (cond : Operand) (tTrue tFalse : Nat) (post : Option Expression)
    (P1 P2 c : Expression)
    (hblk : data.block_data.get? index = some blk)
    (hterm : blk.terminator = some (.If cond tTrue tFalse))
    (hT : gen fuel tTrue data post = some (.ok (some P1)))
    (hF : gen fuel tFalse data post = some (.ok (some P2)))
    (hc : gen_condition cond data = .ok c) :
    gen (fuel + 1) index data post
      = some (foldStmts data blk.statements.reverse
          (some (.BinaryExpression .And
            (.BinaryExpression .Implication c P1)
            (.BinaryExpression .Implication (.UnaryExpression .Not c) P2))))
    ∧ ((∃ v, c = .VariableMapping v) ∨ (∃ b, c = .BooleanLiteral b)) := by
  constructor
  · rw [gen_succ]
    simp only [genBody, hblk, hterm, hT, hF, hc, unwrapO]
  · cases cond with
    | Consume l =>
      cases hl : gen_lvalue l data with
      | error e => rw [gen_condition, hl] at hc; exact absurd hc (by simp)
      | ok v =>
        rw [gen_condition, hl] at hc
        have : Expression.VariableMapping v = c := by
          simpa using hc
        exact Or.inl ⟨v, this.symm⟩
    | Constant cst =>
      rcases cst with ⟨lit, ty⟩
      cases lit with
      | value v =>
        cases v with
        | Bool b =>
          have : Expression.BooleanLiteral b = c := by
            simpa [gen_condition] using hc
          exact Or.inr ⟨b, this.symm⟩
        | Integral ci => rw [gen_condition] at hc; exact absurd hc (by simp)
        | OtherVal => rw [gen_condition] at hc; exact absurd hc (by simp)
      | item p => rw [gen_condition] at hc; exact absurd hc (by simp)
      | promoted => rw [gen_condition] at hc; exact absurd hc (by simp)

/-- Witness for C1 at a concrete branch CFG. -/
theorem c1_conditional_branch_wp_witness :
    gen_condition (.Consume (.Arg 0)) c1Data = .ok (.VariableMapping ⟨"b", .Bool⟩)
    ∧ (gen 2 0 c1Data (some pTrue)
        = some (.ok (some (.BinaryExpression .And
            (.BinaryExpression .Implication (.VariableMapping ⟨"b", .Bool⟩) pTrue)
            (.BinaryExpression .Implication
              (.UnaryExpression .Not (.VariableMapping ⟨"b", .Bool⟩)) pTrue))))
      ∧ ((∃ v, (Expression.VariableMapping ⟨"b", .Bool⟩) = .VariableMapping v)
          ∨ (∃ b, (Expression.VariableMapping ⟨"b", .Bool⟩) = .BooleanLiteral b))) :=
  ⟨rfl,
    c1_conditional_branch_wp 1 0 c1Data ⟨[], some (.If (.Consume (.Arg 0)) 1 2)⟩
      (.Consume (.Arg 0)) 1 2 (some pTrue) pTrue pTrue
      (.VariableMapping ⟨"b", .Bool⟩) rfl rfl rfl rfl rfl⟩

/-- Claim C2 (amended): for Goto, Assert and ConditionalBranch
terminators, `gen` first resolves the terminator's predicate (recursing
into successors) and only then folds the block's statements backward in
strictly last-to-first order, each fold consuming the previous
predicate; a Return terminator instead returns the supplied
postcondition immediately, skipping the block's statements. -/
theorem c2_terminator_first_then_reverse_fold
    (fuel index : Nat) (data : MirData) (blk : BasicBlockData) (post : Option Expression)
    (hblk : data.block_data.get? index = some blk) :
    (∀ t w, blk.terminator = some (.Goto t) →
        gen fuel t data post = some (.ok w) →
        gen (fuel + 1) index data post = some (foldStmts data blk.statements.reverse w))
    ∧ (∀ t w, blk.terminator = some (.Assert t) →
        gen fuel t data post = some (.ok w) →
        gen (fuel + 1) index data post = some (foldStmts data blk.statements.reverse w))
    ∧ (∀ cond tT tF P1 P2 c, blk.terminator = some (.If cond tT tF) →
        gen fuel tT data post = some (.ok (some P1)) →
        gen fuel tF data post = some (.ok (some P2)) →
        gen_condition cond data = .ok c →
        gen (fuel + 1) index data post
          = some (foldStmts data blk.statements.reverse
              (some (.BinaryExpression .And
                (.BinaryExpression .Implication c P1)
                (.BinaryExpression .Implication (.UnaryExpression .Not c) P2)))))
    ∧ (blk.terminator = some .Return →
        gen (fuel + 1) index data post = some (.ok post))
    ∧ (∀ w stmt rest,
        foldStmts data (stmt :: rest) (some w)
          = match gen_stmt w stmt data with
            | .error e => .error e
            | .ok w2 => foldStmts data rest w2) := by
  refine ⟨?_, ?_, ?_, ?_, ?_⟩
  · intro t w hterm hrec
    rw [gen_succ]
    simp only [genBody, hblk, hterm, hrec]
  · intro t w hterm hrec
    rw [gen_succ]
    simp only [genBody, hblk, hterm, hrec]
  · intro cond tT tF P1 P2 c hterm hT hF hc
    rw [gen_succ]
    simp only [genBody, hblk, hterm, hT, hF, hc, unwrapO]
  · intro hterm
    rw [gen_succ]
    simp only [genBody, hblk, hterm]
  · intro w stmt rest
    rfl

/-- Counterexample to C2 as stated: the Return-terminated block of
`c2Data` carries the assignment `var0 := 5`, yet `gen` returns the raw
postcondition, not the result of folding that statement through
`gen_stmt` as the claim requires for every terminator kind. -/
theorem c2_counterexample_return_block :
    c2Data.block_data.get? 0 = some ⟨[c2Stmt], some .Return⟩
    ∧ gen 5 0 c2Data (some c2Post) = some (.ok (some c2Post))
    ∧ gen_stmt c2Post c2Stmt c2Data = .ok (some (.SignedBitVector 32 5))
    ∧ c2Post ≠ .SignedBitVector 32 5 :=
  ⟨rfl, rfl, rfl, by decide⟩

/-- Witness for the amended C2 at concrete inputs. -/
theorem c2_terminator_first_then_reverse_fold_witness :
    gen 1 1 chainData (some pTrue) = some (.ok (some pTrue))
    ∧ gen 2 0 chainData (some pTrue)
        = some (foldStmts chainData ([] : List Statement) (some pTrue))
    ∧ gen 2 0 c2Data (some c2Post) = some (.ok (some c2Post)) :=
  ⟨rfl,
    (c2_terminator_first_then_reverse_fold 1 0 chainData ⟨[], some (.Goto 1)⟩
      (some pTrue) rfl).1 1 (some pTrue) rfl rfl,
    (c2_terminator_first_then_reverse_fold 1 0 c2Data ⟨[c2Stmt], some .Return⟩
      (some c2Post) rfl).2.2.2.1 rfl⟩

/-- Claim C3 (amended): the source performs no back-edge detection: on a
CFG with a loop back-edge the recursion never bottoms out (every fuel
bound is exhausted, so no Expression and no reported fatal failure is
produced), while on a CFG admitting a measure that decreases across
every edge — in particular any DAG, measured by longest path — `gen`
bottoms out within fuel exceeding the measure of the entry block. -/
theorem c3_no_detection_loops_diverge_dags_terminate :
    (∀ fuel post, gen fuel 0 loopData post = none)
    ∧ (∀ (data : MirData) (m : Nat → Nat),
        (∀ i j, edge data i j → m j < m i) →
        ∀ fuel index post, m index < fuel → gen fuel index data post ≠ none) :=
  ⟨fun fuel post => gen_loop_none post fuel, gen_measure_no_none⟩

/-- Counterexample to C3 as stated: at the concrete one-block self-loop
CFG, `gen` produces no reported fatal failure and no Expression at any
recursion depth — the claim's detected fatal condition does not exist. -/
theorem c3_counterexample_loop_diverges : divergesAt loopData 0 (some pTrue) :=
  fun fuel => gen_loop_none (some pTrue) fuel

/-- Witness for the amended C3 at concrete inputs. -/
theorem c3_no_detection_witness :
    gen 3 0 loopData (some pTrue) = none
    ∧ gen 2 0 chainData (some pTrue) ≠ none := by
  have hm : ∀ i j, edge chainData i j → chainMeasure j < chainMeasure i := by
    rintro i j ⟨blk, term, hget, hterm, hmem⟩
    rcases i with _ | _ | n
    · have hb : (⟨[], some (TerminatorKind.Goto 1)⟩ : BasicBlockData) = blk :=
        Option.some.inj hget
      rw [← hb] at hterm
      have ht : TerminatorKind.Goto 1 = term := Option.some.inj hterm
      rw [← ht] at hmem
      simp only [succs, List.mem_singleton] at hmem
      subst hmem
      decide
    · have hb : (⟨[], some TerminatorKind.Return⟩ : BasicBlockData) = blk :=
        Option.some.inj hget
      rw [← hb] at hterm
      have ht : TerminatorKind.Return = term := Option.some.inj hterm
      rw [← ht] at hmem
      simp [succs] at hmem
    · exact Option.noConfusion hget
  exact ⟨c3_no_detection_loops_diverge_dags_terminate.1 3 (some pTrue),
    c3_no_detection_loops_diverge_dags_terminate.2 chainData chainMeasure hm 2 0
      (some pTrue) (by decide)⟩

/-- Claim C4: a Call whose callee is a constant recognized as the panic
entry point yields the Boolean literal `false` for every argument list
and postcondition; a constant callee that is not recognized, or a
non-constant callee, is a fatal condition and never yields an
Expression. -/
theorem c4_call_panic_handling
    (fuel index : Nat) (data : MirData) (blk : BasicBlockData) (post : Option Expression)
    (func : Operand) (args : List Operand)
    (hblk : data.block_data.get? index = some blk)
    (hterm : blk.terminator = some (.Call func args)) :
    (∀ c, func = .Constant c →
        strContains (litDebugText c.literal) "begin_panic" = true →
        gen (fuel + 1) index data post = some (.ok (some (.BooleanLiteral false))))
    ∧ (∀ c, func = .Constant c →
        strContains (litDebugText c.literal) "begin_panic" = false →
        gen (fuel + 1) index data post = some (.error .unreach))
    ∧ (∀ l, func = .Consume l →
        gen (fuel + 1) index data post = some (.error .unimpl)) := by
  refine ⟨?_, ?_, ?_⟩
  · intro c hf hcont
    subst hf
    rw [gen_succ]
    simp only [genBody, hblk, hterm, hcont]
    simp
  · intro c hf hcont
    subst hf
    rw [gen_succ]
    simp only [genBody, hblk, hterm, hcont]
    simp
  · intro l hf
    subst hf
    rw [gen_succ]
    simp only [genBody, hblk, hterm]

/-- Witness for C4 at concrete call blocks. -/
theorem c4_call_panic_handling_witness :
    strContains (litDebugText panicConst.literal) "begin_panic" = true
    ∧ gen 1 0 c4Data (some pTrue) = some (.ok (some (.BooleanLiteral false)))
    ∧ gen 1 0 c4DataB (some pTrue) = some (.error .unreach) :=
  ⟨rfl,
    (c4_call_panic_handling 0 0 c4Data ⟨[], some (.Call (.Constant panicConst) [])⟩
      (some pTrue) (.Constant panicConst) [] rfl rfl).1 panicConst rfl rfl,
    (c4_call_panic_handling 0 0 c4DataB ⟨[], some (.Call (.Constant otherConst) [])⟩
      (some pTrue) (.Constant otherConst) [] rfl rfl).2.1 otherConst rfl rfl⟩

/-- Claim C10: recognition of the panic entry point is a substring test
on the debug-formatted text of the constant callee's literal: whenever
`begin_panic` occurs anywhere in that text, `gen` returns the Boolean
literal `false`, for every argument list and postcondition; when it does
not occur, the call is fatal. -/
theorem c10_panic_recognition_is_substring_test
    (fuel index : Nat) (data : MirData) (blk : BasicBlockData) (post : Option Expression)
    (c : ConstantData) (args : List Operand)
    (hblk : data.block_data.get? index = some blk)
    (hterm : blk.terminator = some (.Call (.Constant c) args)) :
    ((∃ pre suf, (litDebugText c.literal).data = pre ++ "begin_panic".data ++ suf) →
        gen (fuel + 1) index data post = some (.ok (some (.BooleanLiteral false))))
    ∧ ((∀ pre suf, (litDebugText c.literal).data ≠ pre ++ "begin_panic".data ++ suf) →
        gen (fuel + 1) index data post = some (.error .unreach)) := by
  constructor
  · intro hex
    have hcont : strContains (litDebugText c.literal) "begin_panic" = true :=
      (strContains_iff _ _).mpr hex
    rw [gen_succ]
    simp only [genBody, hblk, hterm, hcont]
    simp
  · intro hne
    have hcont : strContains (litDebugText c.literal) "begin_panic" = false := by
      cases hb2 : strContains (litDebugText c.literal) "begin_panic" with
      | false => rfl
      | true =>
        obtain ⟨pre, suf, hocc⟩ := (strContains_iff _ _).mp hb2
        exact absurd hocc (hne pre suf)
    rw [gen_succ]
    simp only [genBody, hblk, hterm, hcont]
    simp

/-- Witness for C10 at concrete call blocks. -/
theorem c10_panic_recognition_witness :
    (∃ pre suf, (litDebugText panicConst.literal).data = pre ++ "begin_panic".data ++ suf)
    ∧ gen 2 0 c4Data (some pTrue) = some (.ok (some (.BooleanLiteral false)))
    ∧ gen 2 0 c4DataB (some pTrue) = some (.error .unreach) := by
  have hx : ∃ pre suf,
      (litDebugText panicConst.literal).data = pre ++ "begin_panic".data ++ suf :=
    (strContains_iff _ _).mp rfl
  refine ⟨hx, ?_, ?_⟩
  · exact (c10_panic_recognition_is_substring_test 1 0 c4Data
      ⟨[], some (.Call (.Constant panicConst) [])⟩ (some pTrue) panicConst [] rfl rfl).1 hx
  · refine (c10_panic_recognition_is_substring_test 1 0 c4DataB
      ⟨[], some (.Call (.Constant otherConst) [])⟩ (some pTrue) otherConst [] rfl rfl).2 ?_
    intro pre suf hocc
    have hc : strContains (litDebugText otherConst.literal) "begin_panic" = true :=
      (strContains_iff _ _).mpr ⟨pre, suf, hocc⟩
    exact absurd hc (by decide)

/-- Claim C5: for a division or remainder assignment, `gen_stmt`
conjoins the divisor-not-zero guard (whose zero literal carries the
divisor's width and signedness) into the predicate before substitution;
the overflow bound pair is conjoined exactly when the operand type is
signed — for unsigned operands exactly the zero guard is added and the
incoming predicate is otherwise untouched. -/
theorem c5_div_rem_zero_guard_signed_overflow
    (data : MirData) (wp : Expression) (lv : Lvalue) (lop rop : Operand)
    (binop : BinOp) (bop : BinaryOperator)
    (var : VariableMappingData) (le re : Expression) (t : Types)
    (hop : (binop = BinOp.Div ∧ bop = BinaryOperator.Division)
        ∨ (binop = BinOp.Rem ∧ bop = BinaryOperator.Modulo))
    (hlv : gen_lvalue lv data = .ok var)
    (hle : gen_expression lop data = .ok le)
    (hre : gen_expression rop data = .ok re)
    (ht : determine_evaluation_type re = .ok t) :
    (is_unsigned_int_type t = true →
      gen_stmt wp (.Assign lv (.CheckedBinaryOp binop lop rop)) data
        = .ok (some (substitute_variable_with_expression
            (.BinaryExpression .And wp
              (.BinaryExpression .NotEqual re (.UnsignedBitVector (type_width t) 0)))
            ⟨var.name ++ ".0", var.var_type⟩ (.BinaryExpression bop le re)))
      ∧ gen_stmt wp (.Assign lv (.BinaryOp binop lop rop)) data
        = .ok (some (substitute_variable_with_expression
            (.BinaryExpression .And wp
              (.BinaryExpression .NotEqual re (.UnsignedBitVector (type_width t) 0)))
            var (.BinaryExpression bop le re))))
    ∧ (is_signed_type t = true →
      ∀ ow, overflow_check wp var binop le re = .ok ow →
      gen_stmt wp (.Assign lv (.CheckedBinaryOp binop lop rop)) data
        = .ok (some (substitute_variable_with_expression
            (.BinaryExpression .And ow
              (.BinaryExpression .NotEqual re (.SignedBitVector (type_width t) 0)))
            ⟨var.name ++ ".0", var.var_type⟩ (.BinaryExpression bop le re)))
      ∧ gen_stmt wp (.Assign lv (.BinaryOp binop lop rop)) data
        = .ok (some (substitute_variable_with_expression
            (.BinaryExpression .And ow
              (.BinaryExpression .NotEqual re (.SignedBitVector (type_width t) 0)))
            var (.BinaryExpression bop le re)))) := by
  rcases hop with ⟨h1, h2⟩ | ⟨h1, h2⟩
  · subst h1; subst h2
    constructor
    · intro hu
      cases t <;>
        first
        | (exfalso; revert hu; decide)
        | constructor <;>
            simp [gen_stmt, gen_rvalue_core, hlv, hle, hre, checked_op_wp, binary_op_wp,
              ht, add_zero_check, is_signed_type, type_width]
    · intro hs ow how
      cases t <;>
        first
        | (exfalso; revert hs; decide)
        | constructor <;>
            simp [gen_stmt, gen_rvalue_core, hlv, hle, hre, checked_op_wp, binary_op_wp,
              ht, how, add_zero_check, is_signed_type, type_width]
  · subst h1; subst h2
    constructor
    · intro hu
      cases t <;>
        first
        | (exfalso; revert hu; decide)
        | constructor <;>
            simp [gen_stmt, gen_rvalue_core, hlv, hle, hre, checked_op_wp, binary_op_wp,
              ht, add_zero_check, is_signed_type, type_width]
    · intro hs ow how
      cases t <;>
        first
        | (exfalso; revert hs; decide)
        | constructor <;>
            simp [gen_stmt, gen_rvalue_core, hlv, hle, hre, checked_op_wp, binary_op_wp,
              ht, how, add_zero_check, is_signed_type, type_width]

/-- Witness for C5: unsigned `u8` checked division conjoins exactly the
divisor-not-zero guard with an unsigned 8-bit zero. -/
theorem c5_div_rem_zero_guard_signed_overflow_witness :
    is_unsigned_int_type Types.U8 = true
    ∧ gen_stmt pTrue c5Stmt c5Data
        = .ok (some (.BinaryExpression .And pTrue
            (.BinaryExpression .NotEqual (.VariableMapping ⟨"b", .U8⟩)
              (.UnsignedBitVector 8 0)))) :=
  ⟨rfl,
    ((c5_div_rem_zero_guard_signed_overflow c5Data pTrue (.Temp 0)
      (.Consume (.Arg 0)) (.Consume (.Arg 1)) .Div .Division ⟨"tmp0", .U8⟩
      (.VariableMapping ⟨"a", .U8⟩) (.VariableMapping ⟨"b", .U8⟩) .U8
      (Or.inl ⟨rfl, rfl⟩) rfl rfl rfl rfl).1 rfl).1⟩

/-- Claim C6: for a checked binary operation the substitution key is the
target's name qualified with `.0` (type unchanged), so occurrences of
the first-field name are replaced by the arithmetic expression, while a
variable named with the `.1` (overflow-flag) qualification is never
substituted. -/
theorem c6_checked_substitution_key_first_field
    (data : MirData) (wp : Expression) (lv : Lvalue) (lop rop : Operand)
    (binop : BinOp) (var : VariableMappingData) (le re w2 : Expression)
    (bop : BinaryOperator)
    (hlv : gen_lvalue lv data = .ok var)
    (hle : gen_expression lop data = .ok le)
    (hre : gen_expression rop data = .ok re)
    (hpair : checked_op_wp wp var binop le re = .ok (w2, bop)) :
    gen_stmt wp (.Assign lv (.CheckedBinaryOp binop lop rop)) data
      = .ok (some (substitute_variable_with_expression w2
          ⟨var.name ++ ".0", var.var_type⟩ (.BinaryExpression bop le re)))
    ∧ (∀ t e, substitute_variable_with_expression
          (.VariableMapping ⟨var.name ++ ".1", t⟩)
          ⟨var.name ++ ".0", var.var_type⟩ e
        = .VariableMapping ⟨var.name ++ ".1", t⟩) := by
  constructor
  · simp only [gen_stmt, gen_rvalue_core, hlv, hle, hre, hpair, List.foldl]
  · intro t e
    have hne : var.name ++ ".1" ≠ var.name ++ ".0" :=
      append_suffix_ne var.name ".1" ".0" (by decide)
    simp only [substitute_variable_with_expression]
    exact if_neg (fun hcontra => hne (congrArg VariableMappingData.name hcontra))

/-- Witness for C6 at a concrete `i32` checked addition. -/
theorem c6_checked_substitution_key_first_field_witness :
    checked_op_wp pTrue ⟨"tmp0", .I32⟩ .Add (.VariableMapping ⟨"x", .I32⟩)
        (.VariableMapping ⟨"y", .I32⟩) = .ok (c6Guarded, .Addition)
    ∧ gen_stmt pTrue c6Stmt c6Data = .ok (some c6Guarded)
    ∧ substitute_variable_with_expression (.VariableMapping ⟨"tmp0.1", .Bool⟩)
        ⟨"tmp0.0", .I32⟩ (.BooleanLiteral false) = .VariableMapping ⟨"tmp0.1", .Bool⟩ :=
  ⟨rfl,
    (c6_checked_substitution_key_first_field c6Data pTrue (.Temp 0)
      (.Consume (.Arg 0)) (.Consume (.Arg 1)) .Add ⟨"tmp0", .I32⟩
      (.VariableMapping ⟨"x", .I32⟩) (.VariableMapping ⟨"y", .I32⟩) c6Guarded .Addition
      rfl rfl rfl rfl).1,
    (c6_checked_substitution_key_first_field c6Data pTrue (.Temp 0)
      (.Consume (.Arg 0)) (.Consume (.Arg 1)) .Add ⟨"tmp0", .I32⟩
      (.VariableMapping ⟨"x", .I32⟩) (.VariableMapping ⟨"y", .I32⟩) c6Guarded .Addition
      rfl rfl rfl rfl).2 .Bool (.BooleanLiteral false)⟩

/-- Claim C7 (amended): an aggregate right-hand side is supported
exactly when it is a tuple; any non-tuple aggregate is fatal.  The
two-element arity of a checked operation's tuple is not checked: a tuple
of any arity is accepted, each element yielding a variable mapping that
is substituted in turn. -/
theorem c7_aggregate_tuple_only_arity_unchecked
    (data : MirData) (wp : Expression) (lv : Lvalue) (var : VariableMappingData)
    (kind : AggregateKind) (ops : List Operand)
    (hlv : gen_lvalue lv data = .ok var) :
    (∀ es, kind = .Tuple → aggregate_exprs ops data = .ok es →
        gen_stmt wp (.Assign lv (.Aggregate kind ops)) data
          = .ok (some (es.foldl
              (fun w e => substitute_variable_with_expression w var e) wp)))
    ∧ (kind ≠ .Tuple →
        gen_stmt wp (.Assign lv (.Aggregate kind ops)) data
          = .error (.rpError "Unsupported aggregate: only tuples are supported")) := by
  constructor
  · intro es hk hagg
    subst hk
    simp only [gen_stmt, gen_rvalue_core, hlv, hagg]
  · intro hk
    cases kind with
    | Tuple => exact absurd rfl hk
    | Vec => simp only [gen_stmt, gen_rvalue_core, hlv]
    | Adt => simp only [gen_stmt, gen_rvalue_core, hlv]
    | Closure => simp only [gen_stmt, gen_rvalue_core, hlv]

/-- Counterexample to C7 as stated: a three-element tuple aggregate (an
arity other than two) is accepted by `gen_stmt` and yields a predicate,
not a fatal condition. -/
theorem c7_counterexample_three_tuple_accepted :
    c7Ops.length = 3
    ∧ gen_stmt pTrue c7Stmt c7Data = .ok (some pTrue) :=
  ⟨rfl, rfl⟩

/-- Witness for the amended C7: the tuple case at arity three and the
fatal non-tuple (Vec) case. -/
theorem c7_aggregate_tuple_only_witness :
    gen_stmt pTrue c7Stmt c7Data
      = .ok (some (c7Exprs.foldl
          (fun w e => substitute_variable_with_expression w ⟨"tmp0", .I32⟩ e) pTrue))
    ∧ gen_stmt pTrue (.Assign (.Temp 0) (.Aggregate .Vec c7Ops)) c7Data
      = .error (.rpError "Unsupported aggregate: only tuples are supported") :=
  ⟨(c7_aggregate_tuple_only_arity_unchecked c7Data pTrue (.Temp 0) ⟨"tmp0", .I32⟩
      .Tuple c7Ops rfl).1 c7Exprs rfl rfl,
    (c7_aggregate_tuple_only_arity_unchecked c7Data pTrue (.Temp 0) ⟨"tmp0", .I32⟩
      .Vec c7Ops rfl).2 (by decide)⟩

/-- Claim C8: a unary complement chooses its operator by the resolved
type of the operand expression — logical not when boolean, bitwise not
otherwise — and unary negation always maps to arithmetic negation. -/
theorem c8_complement_kind_follows_operand_type
    (data : MirData) (wp : Expression) (lv : Lvalue) (vop : Operand)
    (var : VariableMappingData) (e : Expression) (t : Types)
    (hlv : gen_lvalue lv data = .ok var)
    (he : gen_expression vop data = .ok e)
    (ht : determine_evaluation_type e = .ok t) :
    (t = .Bool →
      gen_stmt wp (.Assign lv (.UnaryOp .Not vop)) data
        = .ok (some (substitute_variable_with_expression wp var
            (.UnaryExpression .Not e))))
    ∧ (t ≠ .Bool →
      gen_stmt wp (.Assign lv (.UnaryOp .Not vop)) data
        = .ok (some (substitute_variable_with_expression wp var
            (.UnaryExpression .BitwiseNot e))))
    ∧ gen_stmt wp (.Assign lv (.UnaryOp .Neg vop)) data
        = .ok (some (substitute_variable_with_expression wp var
            (.UnaryExpression .Negation e))) := by
  refine ⟨?_, ?_, ?_⟩
  · intro htb
    subst htb
    simp [gen_stmt, gen_rvalue_core, hlv, he, unary_operator_for, ht]
  · intro htn
    simp only [gen_stmt, gen_rvalue_core, hlv, he, unary_operator_for, ht, List.foldl]
    rw [if_neg htn]
  · simp only [gen_stmt, gen_rvalue_core, hlv, he, unary_operator_for, List.foldl]

/-- Witness for C8: boolean complement, integer complement, negation. -/
theorem c8_complement_kind_witness :
    gen_stmt (.VariableMapping ⟨"var0", .Bool⟩)
        (.Assign (.Var 0) (.UnaryOp .Not (.Consume (.Arg 0)))) c8Data
      = .ok (some (.UnaryExpression .Not (.VariableMapping ⟨"p", .Bool⟩)))
    ∧ gen_stmt (.VariableMapping ⟨"var1", .I32⟩)
        (.Assign (.Var 1) (.UnaryOp .Not (.Consume (.Arg 1)))) c8Data
      = .ok (some (.UnaryExpression .BitwiseNot (.VariableMapping ⟨"n", .I32⟩)))
    ∧ gen_stmt (.VariableMapping ⟨"var1", .I32⟩)
        (.Assign (.Var 1) (.UnaryOp .Neg (.Consume (.Arg 1)))) c8Data
      = .ok (some (.UnaryExpression .Negation (.VariableMapping ⟨"n", .I32⟩))) :=
  ⟨(c8_complement_kind_follows_operand_type c8Data (.VariableMapping ⟨"var0", .Bool⟩)
      (.Var 0) (.Consume (.Arg 0)) ⟨"var0", .Bool⟩ (.VariableMapping ⟨"p", .Bool⟩) .Bool
      rfl rfl rfl).1 rfl,
    (c8_complement_kind_follows_operand_type c8Data (.VariableMapping ⟨"var1", .I32⟩)
      (.Var 1) (.Consume (.Arg 1)) ⟨"var1", .I32⟩ (.VariableMapping ⟨"n", .I32⟩) .I32
      rfl rfl rfl).2.1 (by decide),
    (c8_complement_kind_follows_operand_type c8Data (.VariableMapping ⟨"var1", .I32⟩)
      (.Var 1) (.Consume (.Arg 1)) ⟨"var1", .I32⟩ (.VariableMapping ⟨"n", .I32⟩) .I32
      rfl rfl rfl).2.2⟩

/-- Claim C9 (amended): temporary, local-variable and return-slot
substitution-key names are pairwise disjoint by construction (`tmp`,
`var`, `return`); argument names, however, are the raw declared debug
names with no prefixing, so an argument can collide with them. -/
theorem c9_temp_var_return_disjoint
    : (∀ (data : MirData) (i j : Nat) (vi vj : VariableMappingData),
        gen_lvalue (.Temp i) data = .ok vi → gen_lvalue (.Var j) data = .ok vj →
        vi.name ≠ vj.name)
    ∧ (∀ (data : MirData) (i : Nat) (vi : VariableMappingData),
        gen_lvalue (.Temp i) data = .ok vi → vi.name ≠ "return")
    ∧ (∀ (data : MirData) (j : Nat) (vj : VariableMappingData),
        gen_lvalue (.Var j) data = .ok vj → vj.name ≠ "return") := by
  refine ⟨?_, ?_, ?_⟩
  · intro data i j vi vj hti hvj
    rw [gen_lvalue_temp_name data i vi hti, gen_lvalue_var_name data j vj hvj]
    exact tmp_ne_var (toString i) (toString j)
  · intro data i vi hti
    rw [gen_lvalue_temp_name data i vi hti]
    exact tmp_ne_return (toString i)
  · intro data j vj hvj
    rw [gen_lvalue_var_name data j vj hvj]
    exact var_ne_return (toString j)

/-- Counterexample to C9 as stated: an argument declared with debug name
`tmp0` and the first temporary resolve to the same substitution-key
name, though they are distinct storage locations of different kinds. -/
theorem c9_counterexample_arg_temp_collision :
    gen_lvalue (.Arg 0) c9Data = .ok ⟨"tmp0", .I32⟩
    ∧ gen_lvalue (.Temp 0) c9Data = .ok ⟨"tmp0", .I32⟩
    ∧ Lvalue.Arg 0 ≠ Lvalue.Temp 0 :=
  ⟨rfl, rfl, by decide⟩

/-- Witness for the amended C9 at a concrete temporary. -/
theorem c9_temp_var_return_disjoint_witness :
    gen_lvalue (.Temp 0) c9Data = .ok ⟨"tmp0", .I32⟩
    ∧ ("tmp0" : String) ≠ "return" :=
  ⟨rfl, c9_temp_var_return_disjoint.2.1 c9Data 0 ⟨"tmp0", .I32⟩ rfl⟩

end RustProof
